import Mathlib

/-
Verification of the query/pagination layer of odincontrib_aws
(src/odincontrib_aws/dynamodb/query.py).

The module is shallowly embedded: Python dicts become association lists
with insertion-ordered, replace-on-rewrite update semantics; the mutable
state of a query object and of a paged cursor is threaded explicitly;
the remote DynamoDB primitive is modelled by the list of page responses
it returns to successive calls.
-/

set_option autoImplicit false

namespace OdinDDB

/-- Values appearing in request-parameter dicts and raw records: strings,
numbers, lists and string-keyed dicts, mirroring the JSON-ish values that
flow through the Python code. -/
inductive DVal where
  | str : String → DVal
  | nat : Nat → DVal
  | list : List DVal → DVal
  | dict : List (String × DVal) → DVal

mutual

def DVal.decEq : (a b : DVal) → Decidable (a = b)
  | DVal.str a, DVal.str b =>
    if h : a = b then isTrue (by rw [h]) else isFalse (by simp only [DVal.str.injEq]; exact h)
  | DVal.nat a, DVal.nat b =>
    if h : a = b then isTrue (by rw [h]) else isFalse (by simp only [DVal.nat.injEq]; exact h)
  | DVal.list a, DVal.list b =>
    match DVal.decEqList a b with
    | isTrue h => isTrue (by rw [h])
    | isFalse h => isFalse (by simp only [DVal.list.injEq]; exact h)
  | DVal.dict a, DVal.dict b =>
    match DVal.decEqPairs a b with
    | isTrue h => isTrue (by rw [h])
    | isFalse h => isFalse (by simp only [DVal.dict.injEq]; exact h)
  | DVal.str _, DVal.nat _ => isFalse (fun h => DVal.noConfusion h)
  | DVal.str _, DVal.list _ => isFalse (fun h => DVal.noConfusion h)
  | DVal.str _, DVal.dict _ => isFalse (fun h => DVal.noConfusion h)
  | DVal.nat _, DVal.str _ => isFalse (fun h => DVal.noConfusion h)
  | DVal.nat _, DVal.list _ => isFalse (fun h => DVal.noConfusion h)
  | DVal.nat _, DVal.dict _ => isFalse (fun h => DVal.noConfusion h)
  | DVal.list _, DVal.str _ => isFalse (fun h => DVal.noConfusion h)
  | DVal.list _, DVal.nat _ => isFalse (fun h => DVal.noConfusion h)
  | DVal.list _, DVal.dict _ => isFalse (fun h => DVal.noConfusion h)
  | DVal.dict _, DVal.str _ => isFalse (fun h => DVal.noConfusion h)
  | DVal.dict _, DVal.nat _ => isFalse (fun h => DVal.noConfusion h)
  | DVal.dict _, DVal.list _ => isFalse (fun h => DVal.noConfusion h)

def DVal.decEqList : (a b : List DVal) → Decidable (a = b)
  | [], [] => isTrue rfl
  | _ :: _, [] => isFalse (fun h => List.noConfusion h)
  | [], _ :: _ => isFalse (fun h => List.noConfusion h)
  | a :: as, b :: bs =>
    match DVal.decEq a b with
    | isFalse h => isFalse (by simp only [List.cons.injEq]; intro hh; exact h hh.1)
    | isTrue h =>
      match DVal.decEqList as bs with
      | isFalse hs => isFalse (by simp only [List.cons.injEq]; intro hh; exact hs hh.2)
      | isTrue hs => isTrue (by rw [h, hs])

def DVal.decEqPairs : (a b : List (String × DVal)) → Decidable (a = b)
  | [], [] => isTrue rfl
  | _ :: _, [] => isFalse (fun h => List.noConfusion h)
  | [], _ :: _ => isFalse (fun h => List.noConfusion h)
  | (k, v) :: as, (l, w) :: bs =>
    if hk : k = l then
      match DVal.decEq v w with
      | isFalse h => isFalse (by
          simp only [List.cons.injEq, Prod.mk.injEq]
          intro hh
          exact h hh.1.2)
      | isTrue h =>
        match DVal.decEqPairs as bs with
        | isFalse hs => isFalse (by simp only [List.cons.injEq]; intro hh; exact hs hh.2)
        | isTrue hs => isTrue (by rw [hk, h, hs])
    else
      isFalse (by
        simp only [List.cons.injEq, Prod.mk.injEq]
        intro hh
        exact hk hh.1.1)

end

instance : DecidableEq DVal := DVal.decEq

/-- A Python dict with string keys, as an insertion-ordered association
list without duplicate keys (all construction below goes through
`dictSet`, which never introduces a duplicate). -/
abbrev Dict := List (String × DVal)

/-- Python dict lookup: the value stored at a key, if present. -/
def dictGet : Dict → String → Option DVal
  | [], _ => none
  | (k, v) :: rest, key => if k = key then some v else dictGet rest key

/-- Python dict assignment. A present key keeps its position and gets the
new value; an absent key is appended at the end (insertion order). -/
def dictSet : Dict → String → DVal → Dict
  | [], key, val => [(key, val)]
  | (k, v) :: rest, key, val =>
    if k = key then (key, val) :: dictSet rest key val
    else (k, v) :: dictSet rest key val

/-- A key field of a table: its attribute name and its `prepare_dynamo`
encoding function to the native attribute-value representation. -/
structure KeyField where
  name : String
  prepare_dynamo : DVal → DVal

/-- Sessions are opaque at this layer; only `table_name` consumes them. -/
abbrev Session := Nat

/-- The table metadata the module consumes: `table._meta.table_name(session)`
and `table._meta.key_fields` (hash field first, optional range field). -/
structure TableMeta where
  table_name : Session → String
  key_fields : List KeyField

/-- A table resource class: only its `_meta` is consumed here. -/
structure Table where
  meta : TableMeta

/-- An `Index` instance: a name plus a back-reference to its table. -/
structure Index where
  name : String
  table : Table

/-- State shared by Query and Scan objects (`QueryBase.__init__`): the
session, the resolved table, the optional index and the `_params` dict. -/
structure QueryBase where
  session : Session
  table : Table
  index : Option Index
  params : Dict

/-- QueryBase.__init__: when handed an `Index`, binds `table` to the
index's owning table and remembers the index; otherwise binds the table
directly and leaves `index` as None. `_params` starts empty. -/
def QueryBase.init (session : Session) (table_of_index : Table ⊕ Index) : QueryBase :=
  match table_of_index with
  | Sum.inr ix => { session := session, table := ix.table, index := some ix, params := [] }
  | Sum.inl t => { session := session, table := t, index := none, params := [] }

/-- A query operation: either a `Scan` (no extra state) or a `Query`
(which additionally carries the required hash value and the optional
range value; `none` stands for the `NOT_PROVIDED` sentinel). The
constructor also selects which remote primitive `_command` is bound to. -/
inductive Op where
  | scan : QueryBase → Op
  | query : QueryBase → DVal → Option DVal → Op

/-- The shared `QueryBase` state of an operation. -/
def Op.base : Op → QueryBase
  | Op.scan b => b
  | Op.query b _ _ => b

/-- Replace the `_params` dict of an operation. -/
def Op.withParams : Op → Dict → Op
  | Op.scan b, d => Op.scan { b with params := d }
  | Op.query b hv rv, d => Op.query { b with params := d } hv rv

def Op.params (q : Op) : Dict := q.base.params

def Op.table (q : Op) : Table := q.base.table

/-- Python errors this layer can raise. -/
inductive PyErr where
  | typeError
  | assertionError
deriving DecidableEq, Repr

/-- QueryBase._get_params on the shared state: writes TableName (resolved
through the session) and, when an index is bound, IndexName, INTO the
object's own `_params` dict (`params = self._params` aliases it), and
returns that same dict. The returned pair is (object after the call,
returned dict). -/
def QueryBase.get_params (b : QueryBase) : QueryBase × Dict :=
  let p1 := dictSet b.params "TableName" (DVal.str (b.table.meta.table_name b.session))
  let p2 := match b.index with
    | some ix => dictSet p1 "IndexName" (DVal.str ix.name)
    | none => p1
  ({ b with params := p2 }, p2)

/-- Query._get_params' KeyConditions comprehension: zip the table's key
fields against (hash_value, range_value), drop NOT_PROVIDED values, and
build a dict mapping each remaining field's name to an AttributeValueList
holding the value encoded by that field's `prepare_dynamo`. -/
def keyConditions (fields : List KeyField) (hv : DVal) (rv : Option DVal) : Dict :=
  ((fields.zip [some hv, rv]).filterMap
    (fun fv => fv.2.map (fun v =>
      (fv.1.name, DVal.dict [("AttributeValueList", DVal.list [fv.1.prepare_dynamo v])])))).foldl
    (fun d kv => dictSet d kv.1 kv.2) []

/-- The `_get_params` of the dynamic class of the operation. For a Scan
it is `QueryBase._get_params`; for a Query it additionally writes the
derived `KeyConditions` block into the (aliased) `_params` dict. -/
def Op.get_params : Op → Op × Dict
  | Op.scan b =>
    let bp := b.get_params
    (Op.scan bp.1, bp.2)
  | Op.query b hv rv =>
    let bp := b.get_params
    let p2 := dictSet bp.2 "KeyConditions"
      (DVal.dict (keyConditions b.table.meta.key_fields hv rv))
    (Op.query { bp.1 with params := p2 } hv rv, p2)

/-- QueryBase.copy: `self.__class__(self.session, self.table)` then
`query._params = self._params.copy()`. For a Scan this builds a fresh
Scan bound to the session and the table (note: `self.table`, so an
index binding is not carried over) with a shallow copy of `_params`.
For a Query, `self.__class__` is `Query`, whose `__init__` signature is
`(hash_value, *args)`: the call passes `self.session` as `hash_value`
and only `self.table` on to `QueryBase.__init__`, which is missing its
required `table_of_index` argument — the call raises TypeError. -/
def Op.copy : Op → Except PyErr Op
  | Op.scan b =>
    let fresh := QueryBase.init b.session (Sum.inl b.table)
    Except.ok (Op.scan { fresh with params := b.params })
  | Op.query _ _ _ => Except.error PyErr.typeError

/-- A Python attribute as found by attribute lookup on an operation:
either a bound callable or a plain data value (here: the `self.index`
field, an Index or None). -/
inductive PyAttr where
  | callable : (String → Op) → PyAttr
  | indexVal : Option Index → PyAttr

/-- Python attribute lookup for the name `index` on a Query/Scan object.
`QueryBase.__init__` always assigns the instance attribute `self.index`
(an Index object or None), and instance attributes shadow class
attributes, so the lookup yields that data value — the deprecated class
method `QueryBase.index(name)` is never reached. -/
def Op.attr_index (q : Op) : PyAttr := PyAttr.indexVal q.base.index

/-- Calling a looked-up attribute with one argument: only a callable can
be called; calling an Index object or None raises TypeError. -/
def PyAttr.call1 : PyAttr → String → Except PyErr Op
  | PyAttr.callable f, a => Except.ok (f a)
  | PyAttr.indexVal _, _ => Except.error PyErr.typeError

/-- Evaluation of `op.index(name)`: attribute lookup followed by a call. -/
def Op.index_call (q : Op) (name : String) : Except PyErr Op :=
  (q.attr_index).call1 name

/-- The body of the deprecated method `QueryBase.index(name)` as written
in the class (sets the IndexName parameter directly); kept here to
record what the legacy path was meant to do, although attribute
shadowing makes it unreachable (see `Op.attr_index`). -/
def QueryBase.index_method (b : QueryBase) (name : String) : QueryBase :=
  { b with params := dictSet b.params "IndexName" (DVal.str name) }

/-- QueryBase.params(**params): direct parameter injection via
`self._params.update(params)`. -/
def Op.inject (q : Op) (kvs : List (String × DVal)) : Op :=
  q.withParams (kvs.foldl (fun d kv => dictSet d kv.1 kv.2) q.params)

/-- QueryBase.limit(value): stores the Limit parameter verbatim. -/
def Op.limit (q : Op) (value : DVal) : Op :=
  q.withParams (dictSet q.params "Limit" value)

/-- QueryBase.select(value): asserts the value is one of the four
projection modes (an invalid value raises AssertionError before anything
else happens, in particular before any network call), then stores it. -/
def Op.select (q : Op) (value : String) : Except PyErr Op :=
  if value = "ALL_ATTRIBUTES" ∨ value = "ALL_PROJECTED_ATTRIBUTES" ∨
     value = "COUNT" ∨ value = "SPECIFIC_ATTRIBUTES" then
    Except.ok (q.withParams (dictSet q.params "Select" (DVal.str value)))
  else
    Except.error PyErr.assertionError

/-- QueryBase.consumed_capacity(value): asserts the value is one of the
three capacity-reporting modes, then stores ReturnConsumedCapacity. -/
def Op.consumed_capacity (q : Op) (value : String) : Except PyErr Op :=
  if value = "INDEXES" ∨ value = "TOTAL" ∨ value = "NONE" then
    Except.ok (q.withParams (dictSet q.params "ReturnConsumedCapacity" (DVal.str value)))
  else
    Except.error PyErr.assertionError

/-- One raw response page of the remote query/scan primitive, with the
keys the module reads: `Items`, `Count`, `ScannedCount` and the optional
`LastEvaluatedKey` (absent on the final page). -/
structure Page where
  Items : List DVal
  Count : Nat
  ScannedCount : Nat
  LastEvaluatedKey : Option DVal

instance : Inhabited Page := ⟨⟨[], 0, 0, none⟩⟩

/-- QueryResult: a single page of results wrapping the raw response. -/
structure QueryResult where
  query : Op
  result : Page

def QueryResult.count (r : QueryResult) : Nat := r.result.Count

def QueryResult.scanned (r : QueryResult) : Nat := r.result.ScannedCount

/-- QueryResult.last_evaluated_key: `self._result.get('LastEvaluatedKey')`. -/
def QueryResult.last_evaluated_key (r : QueryResult) : Option DVal :=
  r.result.LastEvaluatedKey

/-- QueryResult.__iter__: decode each raw item of the page, in the
backend's order, through `create_resource_from_dict(item, table)`. The
external decode primitive is a parameter of the model. -/
def QueryResult.iterItems (decode : DVal → Table → DVal) (r : QueryResult) : List DVal :=
  r.result.Items.map (fun item => decode item r.query.table)

/-- PagedQueryResult: the multi-page cursor object, holding the owning
query and the running statistics set up by `PagedQueryResult.__init__`. -/
structure PagedQueryResult where
  query : Op
  pages : Nat
  count : Nat
  scanned : Nat
  last_page : Bool

/-- PagedQueryResult.__init__(query): all counters start at zero and
`last_page` at False. -/
def PagedQueryResult.init (q : Op) : PagedQueryResult :=
  { query := q, pages := 0, count := 0, scanned := 0, last_page := false }

/-- The observable trace of one run of the generator body: the parameter
dicts passed to the successive remote calls, the decoded items yielded,
and whether the loop ended by taking its break (as opposed to running
out of modelled backend responses, in which case `calls` still records
the parameters of the next call the loop issues). -/
structure Trace where
  calls : List Dict
  yielded : List DVal
  finished : Bool
deriving DecidableEq

/-- The statistics update of one loop pass: increment the page counter,
add the page's `Count` and `ScannedCount`, and record whether this was
the last page (continuation key absent). -/
def PagedQueryResult.addPage (st : PagedQueryResult) (results : QueryResult) :
    PagedQueryResult :=
  { st with
      pages := st.pages + 1
      count := st.count + results.count
      scanned := st.scanned + results.scanned
      last_page := results.last_evaluated_key.isNone }

/-- The while-loop of `PagedQueryResult.__iter__`. The remote primitive
is modelled by the list of responses it returns to successive calls.
Each pass builds a `QueryResult` from the fetched page, adds the page's
counters to the cursor's statistics, sets `last_page` from the presence
of the continuation key, yields the page's decoded items, and either
breaks (continuation key absent) or writes `ExclusiveStartKey` into the
parameter dict and loops. -/
def runPages (decode : DVal → Table → DVal) :
    List Page → Dict → PagedQueryResult → PagedQueryResult × Trace
  | [], params, st => (st, ⟨[params], [], false⟩)
  | page :: rest, params, st =>
    let results : QueryResult := ⟨st.query, page⟩
    let st1 := st.addPage results
    match results.last_evaluated_key with
    | none => (st1, ⟨[params], results.iterItems decode, true⟩)
    | some key =>
      let pr := runPages decode rest (dictSet params "ExclusiveStartKey" key) st1
      (pr.1, ⟨params :: pr.2.calls, results.iterItems decode ++ pr.2.yielded, pr.2.finished⟩)

/-- PagedQueryResult.__iter__: each call creates a fresh generator whose
body first evaluates `query._get_params().copy()` — which mutates the
owning query's `_params` (see `Op.get_params`) and snapshots a shallow
copy for this traversal — and then runs the fetch loop, mutating the
cursor's statistics as it goes. -/
def PagedQueryResult.iter (decode : DVal → Table → DVal) (responses : List Page)
    (pr : PagedQueryResult) : PagedQueryResult × Trace :=
  let qp := pr.query.get_params
  runPages decode responses qp.2 { pr with query := qp.1 }

/-- QueryBase.all: the multi-page entry point, returning a fresh cursor
over the operation. -/
def Op.all (q : Op) : PagedQueryResult := PagedQueryResult.init q

/-- QueryBase.__iter__: `iter(self.all())` — iterating the operation
object builds a fresh `PagedQueryResult` over it and iterates that. -/
def Op.iterOp (q : Op) (decode : DVal → Table → DVal) (responses : List Page) :
    PagedQueryResult × Trace :=
  PagedQueryResult.iter decode responses
    { query := q, pages := 0, count := 0, scanned := 0, last_page := false }

/-- QueryBase.single: execute the operation once and wrap the single
response page; no second call is ever made. -/
def Op.single (q : Op) (response : Page) : Op × QueryResult :=
  let qp := q.get_params
  (qp.1, ⟨qp.1, response⟩)

theorem dictGet_dictSet_self (d : Dict) (k : String) (v : DVal) :
    dictGet (dictSet d k v) k = some v := by
  induction d with
  | nil => simp [dictSet, dictGet]
  | cons p rest ih =>
    obtain ⟨k', v'⟩ := p
    by_cases h : k' = k
    · simp [dictSet, dictGet, h]
    · simp [dictSet, dictGet, h, ih]

theorem dictGet_dictSet_ne (d : Dict) (k : String) (v : DVal) (key : String)
    (h : key ≠ k) :
    dictGet (dictSet d k v) key = dictGet d key := by
  induction d with
  | nil => simp [dictSet, dictGet, Ne.symm h]
  | cons p rest ih =>
    obtain ⟨k', v'⟩ := p
    by_cases hk : k' = k
    · subst hk
      simp [dictSet, dictGet, Ne.symm h, ih]
    · by_cases hkey : k' = key <;> simp [dictSet, dictGet, h, hk, hkey, ih]

/-- The sequence of parameter dicts the fetch loop passes to the remote
primitive when started with `params` and continued across the given
non-final pages: each next dict is the previous one with
`ExclusiveStartKey` set to that page's continuation key. -/
def buildCalls (params : Dict) : List Page → List Dict
  | [] => [params]
  | p :: ps =>
    params :: buildCalls (dictSet params "ExclusiveStartKey"
      (p.LastEvaluatedKey.getD (DVal.nat 0))) ps

theorem buildCalls_length (params : Dict) (ps : List Page) :
    (buildCalls params ps).length = ps.length + 1 := by
  induction ps generalizing params with
  | nil => rfl
  | cons p ps ih => simp [buildCalls, ih]

theorem buildCalls_getD_zero (params : Dict) (ps : List Page) :
    (buildCalls params ps).getD 0 [] = params := by
  cases ps <;> rfl

theorem buildCalls_getD_succ (params : Dict) (ps : List Page)
    (k : Nat) (hk : k < ps.length) :
    (buildCalls params ps).getD (k + 1) [] =
      dictSet ((buildCalls params ps).getD k []) "ExclusiveStartKey"
        ((ps.getD k default).LastEvaluatedKey.getD (DVal.nat 0)) := by
  induction ps generalizing params k with
  | nil => exact absurd hk (Nat.not_lt_zero k)
  | cons p ps ih =>
    cases k with
    | zero =>
      rw [show buildCalls params (p :: ps) = params :: buildCalls
            (dictSet params "ExclusiveStartKey" (p.LastEvaluatedKey.getD (DVal.nat 0))) ps
          from rfl]
      rw [List.getD_cons_succ, List.getD_cons_zero, List.getD_cons_zero, buildCalls_getD_zero]
    | succ k =>
      have hk' : k < ps.length := Nat.lt_of_succ_lt_succ hk
      simp only [buildCalls, List.getD_cons_succ]
      exact ih _ _ hk'

/-- Full characterization of one run of the fetch loop over a response
sequence consisting of `init` pages that carry a continuation key,
followed by a final page without one, followed by arbitrary unused
responses: the loop issues exactly the `buildCalls` sequence of calls,
yields the decoded concatenation of the consumed pages' items, takes
its break, and accumulates the consumed pages' statistics. -/
theorem runPages_run (decode : DVal → Table → DVal) (lastp : Page)
    (rest : List Page) (hlast : lastp.LastEvaluatedKey = none) :
    ∀ (init : List Page) (params : Dict) (st : PagedQueryResult),
      (∀ p ∈ init, p.LastEvaluatedKey.isSome = true) →
      runPages decode (init ++ lastp :: rest) params st =
        (⟨st.query, st.pages + (init.length + 1),
          st.count + ((init ++ [lastp]).map Page.Count).sum,
          st.scanned + ((init ++ [lastp]).map Page.ScannedCount).sum, true⟩,
         ⟨buildCalls params init,
          (init ++ [lastp]).flatMap (fun p => p.Items.map (fun it => decode it st.query.table)),
          true⟩)
  | [], params, st, _ => by
    simp [runPages, QueryResult.last_evaluated_key, hlast, PagedQueryResult.addPage,
      QueryResult.count, QueryResult.scanned, QueryResult.iterItems, buildCalls]
  | p :: ps, params, st, hinit => by
    obtain ⟨k, hk⟩ := Option.isSome_iff_exists.mp (hinit p (List.mem_cons_self p ps))
    have hps : ∀ q ∈ ps, q.LastEvaluatedKey.isSome = true :=
      fun q hq => hinit q (List.mem_cons_of_mem p hq)
    have hrec := runPages_run decode lastp rest hlast ps
      (dictSet params "ExclusiveStartKey" k)
      (st.addPage ⟨st.query, p⟩) hps
    simp only [List.cons_append, runPages, QueryResult.last_evaluated_key, hk,
      List.append_eq]
    rw [hrec]
    simp [PagedQueryResult.addPage, QueryResult.count, QueryResult.scanned,
      QueryResult.iterItems, QueryResult.last_evaluated_key, hk, buildCalls,
      Nat.add_assoc, Nat.add_comm 1]

theorem Op.get_params_table (q : Op) : (q.get_params).1.table = q.table := by
  cases q <;> rfl

section Fixtures

/-- A concrete table for witness runs: resolves to the name T and has a
hash and a range key field. -/
def tableEx : Table :=
  ⟨⟨fun _ => "T",
    [⟨"h", fun v => DVal.list [v]⟩, ⟨"r", fun v => DVal.list [v, v]⟩]⟩⟩

/-- A concrete Scan operation over `tableEx`. -/
def scanEx : Op := Op.scan (QueryBase.init 0 (Sum.inl tableEx))

/-- A concrete decode primitive for witness runs: the identity on the
raw record. -/
def decodeEx : DVal → Table → DVal := fun it _ => it

/-- A page with zero items but a present continuation key. -/
def pageCont : Page := ⟨[], 0, 5, some (DVal.nat 9)⟩

/-- A final page: two items, no continuation key. -/
def pageLast : Page := ⟨[DVal.nat 7, DVal.nat 8], 2, 3, none⟩

/-- A response the backend would give to a further (never-issued) call. -/
def pageJunk : Page := ⟨[DVal.nat 99], 1, 1, some (DVal.nat 42)⟩

end Fixtures

/-- C1: over a response sequence in which the pages before the last all
carry a continuation key and the last does not, the cursor issues
exactly as many remote calls as there are pages up to and including
that last page, and then takes its break — no further call is issued
even though further responses (`rest`) are available. Nothing
constrains the pages' item counts, so a page with zero items but a
present continuation key does not terminate the traversal; the witness
runs exactly such a page and observes the further fetch. -/
theorem C1_termination (decode : DVal → Table → DVal) (pr : PagedQueryResult)
    (init : List Page) (lastp : Page) (rest : List Page)
    (hinit : ∀ p ∈ init, p.LastEvaluatedKey.isSome = true)
    (hlast : lastp.LastEvaluatedKey = none) :
    (pr.iter decode (init ++ lastp :: rest)).2.calls.length = init.length + 1 ∧
    (pr.iter decode (init ++ lastp :: rest)).2.finished = true := by
  simp only [PagedQueryResult.iter]
  rw [runPages_run decode lastp rest hlast init _ _ hinit]
  simp [buildCalls_length]

/-- Witness for C1: one zero-item page carrying a continuation key, a
final page without one, and an extra available response; the traversal
issues exactly two calls (so the empty page did trigger a further
fetch) and stops without consuming the extra response. -/
theorem C1_termination_witness :
    ((PagedQueryResult.init scanEx).iter decodeEx
        ([pageCont] ++ pageLast :: [pageJunk])).2.calls.length = 2 ∧
    ((PagedQueryResult.init scanEx).iter decodeEx
        ([pageCont] ++ pageLast :: [pageJunk])).2.finished = true :=
  C1_termination decodeEx (PagedQueryResult.init scanEx) [pageCont] pageLast [pageJunk]
    (by intro p hp; simp at hp; subst hp; rfl) rfl

/-- C2: along a multi-page traversal, the parameter dict of fetch k+1
holds ExclusiveStartKey equal to the LastEvaluatedKey of the response
to fetch k, and agrees with the parameter dict of fetch k at every
other key. -/
theorem C2_threading (decode : DVal → Table → DVal) (pr : PagedQueryResult)
    (init : List Page) (lastp : Page) (rest : List Page)
    (hinit : ∀ p ∈ init, p.LastEvaluatedKey.isSome = true)
    (hlast : lastp.LastEvaluatedKey = none)
    (k : Nat) (hk : k < init.length) :
    dictGet ((pr.iter decode (init ++ lastp :: rest)).2.calls.getD (k + 1) [])
        "ExclusiveStartKey" = (init.getD k default).LastEvaluatedKey ∧
    ∀ s, s ≠ "ExclusiveStartKey" →
      dictGet ((pr.iter decode (init ++ lastp :: rest)).2.calls.getD (k + 1) []) s =
        dictGet ((pr.iter decode (init ++ lastp :: rest)).2.calls.getD k []) s := by
  have hmem : init.getD k default ∈ init := by
    rw [List.getD_eq_getElem _ _ hk]
    exact List.getElem_mem hk
  obtain ⟨v, hv⟩ := Option.isSome_iff_exists.mp (hinit _ hmem)
  simp only [PagedQueryResult.iter]
  rw [runPages_run decode lastp rest hlast init _ _ hinit]
  simp only
  rw [buildCalls_getD_succ _ _ _ hk]
  constructor
  · rw [dictGet_dictSet_self, hv]
    rfl
  · intro s hs
    exact dictGet_dictSet_ne _ _ _ _ hs

/-- Witness for C2: in a concrete two-page traversal the second call's
ExclusiveStartKey equals the first response's LastEvaluatedKey, and the
TableName parameter is unchanged between the two calls. -/
theorem C2_threading_witness :
    dictGet (((PagedQueryResult.init scanEx).iter decodeEx
        ([pageCont] ++ pageLast :: [])).2.calls.getD 1 []) "ExclusiveStartKey"
      = some (DVal.nat 9) ∧
    dictGet (((PagedQueryResult.init scanEx).iter decodeEx
        ([pageCont] ++ pageLast :: [])).2.calls.getD 1 []) "TableName"
      = dictGet (((PagedQueryResult.init scanEx).iter decodeEx
        ([pageCont] ++ pageLast :: [])).2.calls.getD 0 []) "TableName" :=
  ⟨(C2_threading decodeEx (PagedQueryResult.init scanEx) [pageCont] pageLast []
      (by intro p hp; simp at hp; subst hp; rfl) rfl 0 (by simp)).1,
   (C2_threading decodeEx (PagedQueryResult.init scanEx) [pageCont] pageLast []
      (by intro p hp; simp at hp; subst hp; rfl) rfl 0 (by simp)).2
     "TableName" (by decide)⟩

/-- C3: a full traversal of a fresh cursor (obtained from the multi-page
entry point `all`) yields exactly the decoded concatenation of the
consumed pages' item lists, in page order with item order preserved
within each page; its length is the total number of items across the
pages; and afterwards the cursor's accumulated item count, scanned
count and page counter equal the sums of the pages' Count values, the
sums of their ScannedCount values, and the number of pages fetched. -/
theorem C3_concatenation (decode : DVal → Table → DVal) (q : Op)
    (init : List Page) (lastp : Page) (rest : List Page)
    (hinit : ∀ p ∈ init, p.LastEvaluatedKey.isSome = true)
    (hlast : lastp.LastEvaluatedKey = none) :
    ((q.all).iter decode (init ++ lastp :: rest)).2.yielded
        = (init ++ [lastp]).flatMap (fun p => p.Items.map (fun it => decode it q.table)) ∧
    ((q.all).iter decode (init ++ lastp :: rest)).2.yielded.length
        = ((init ++ [lastp]).map (fun p => p.Items.length)).sum ∧
    ((q.all).iter decode (init ++ lastp :: rest)).1.count
        = ((init ++ [lastp]).map Page.Count).sum ∧
    ((q.all).iter decode (init ++ lastp :: rest)).1.scanned
        = ((init ++ [lastp]).map Page.ScannedCount).sum ∧
    ((q.all).iter decode (init ++ lastp :: rest)).1.pages = init.length + 1 := by
  simp only [Op.all, PagedQueryResult.init, PagedQueryResult.iter]
  rw [runPages_run decode lastp rest hlast init _ _ hinit]
  simp [Op.get_params_table, List.length_flatMap, Function.comp_def]

/-- Witness for C3: a concrete two-page traversal yields the two items
of the final page (the first page being empty), of length 0 + 2, with
count 0 + 2, scanned 5 + 3 and pages 2. -/
theorem C3_concatenation_witness :
    ((scanEx.all).iter decodeEx ([pageCont] ++ pageLast :: [pageJunk])).2.yielded
        = [DVal.nat 7, DVal.nat 8] ∧
    ((scanEx.all).iter decodeEx ([pageCont] ++ pageLast :: [pageJunk])).2.yielded.length = 2 ∧
    ((scanEx.all).iter decodeEx ([pageCont] ++ pageLast :: [pageJunk])).1.count = 2 ∧
    ((scanEx.all).iter decodeEx ([pageCont] ++ pageLast :: [pageJunk])).1.scanned = 8 ∧
    ((scanEx.all).iter decodeEx ([pageCont] ++ pageLast :: [pageJunk])).1.pages = 2 :=
  C3_concatenation decodeEx scanEx [pageCont] pageLast [pageJunk]
    (by intro p hp; simp at hp; subst hp; rfl) rfl

/-- C4 as stated is false: `PagedQueryResult.__iter__` is a generator
method, so iterating the exhausted cursor object again creates a fresh
generator that restarts the whole traversal. Concretely: after running
a one-page traversal to exhaustion, iterating the same cursor again
does NOT yield nothing with no calls — it issues a call and yields the
page's items again. -/
theorem C4_counterexample :
    ¬ ((((PagedQueryResult.init scanEx).iter decodeEx [pageLast]).1.iter
          decodeEx [pageLast]).2.yielded = [] ∧
       (((PagedQueryResult.init scanEx).iter decodeEx [pageLast]).1.iter
          decodeEx [pageLast]).2.calls = []) := by
  decide

/-- C4 (amended): re-iterating the exhausted cursor object restarts the
traversal from the beginning — it re-snapshots the operation's
parameters, issues the full sequence of fetches again and yields the
same items again, while the cursor's page counter keeps accumulating.
Only the generator produced by one `__iter__` call is single-pass; a
fresh traversal does not require a new cursor object. -/
theorem C4_reiterate (decode : DVal → Table → DVal) (pr : PagedQueryResult)
    (init : List Page) (lastp : Page) (rest : List Page)
    (hinit : ∀ p ∈ init, p.LastEvaluatedKey.isSome = true)
    (hlast : lastp.LastEvaluatedKey = none) :
    ((pr.iter decode (init ++ lastp :: rest)).1.iter decode
        (init ++ lastp :: rest)).2.yielded
      = (pr.iter decode (init ++ lastp :: rest)).2.yielded ∧
    ((pr.iter decode (init ++ lastp :: rest)).1.iter decode
        (init ++ lastp :: rest)).2.calls.length = init.length + 1 ∧
    ((pr.iter decode (init ++ lastp :: rest)).1.iter decode
        (init ++ lastp :: rest)).1.pages
      = (pr.iter decode (init ++ lastp :: rest)).1.pages + (init.length + 1) := by
  simp only [PagedQueryResult.iter]
  rw [runPages_run decode lastp rest hlast init _ _ hinit]
  dsimp only
  rw [runPages_run decode lastp rest hlast init _ _ hinit]
  simp [buildCalls_length, Op.get_params_table]

/-- Witness for C4 (amended): the concrete re-iteration yields the two
items again, issues one further call, and doubles the page counter. -/
theorem C4_reiterate_witness :
    (((PagedQueryResult.init scanEx).iter decodeEx [pageLast]).1.iter
        decodeEx [pageLast]).2.yielded
      = ((PagedQueryResult.init scanEx).iter decodeEx [pageLast]).2.yielded ∧
    (((PagedQueryResult.init scanEx).iter decodeEx [pageLast]).1.iter
        decodeEx [pageLast]).2.calls.length = 1 ∧
    (((PagedQueryResult.init scanEx).iter decodeEx [pageLast]).1.iter
        decodeEx [pageLast]).1.pages
      = ((PagedQueryResult.init scanEx).iter decodeEx [pageLast]).1.pages + 1 :=
  C4_reiterate decodeEx (PagedQueryResult.init scanEx) [] pageLast []
    (by intro p hp; simp at hp) rfl

/-- C5 as stated is false: single-page execution (and equally the start
of a traversal) calls `_get_params`, whose `params = self._params`
aliases the operation's own dict and then writes the derived entries
into it. Concretely, executing a Scan whose parameter set is empty
leaves TableName written into the operation's own parameter set. -/
theorem C5_counterexample :
    ¬ ((scanEx.single pageLast).1.params = scanEx.params) := by
  decide

/-- C5 (amended): executing an operation DOES mutate its own parameter
set, but only at the derived keys — TableName, IndexName (when an index
is bound) and, for a Query, KeyConditions; every other parameter is
left unchanged, and the dict handed to the remote call is exactly the
operation's own parameter dict after those writes (the traversal then
works on a shallow copy snapshotted at traversal start). -/
theorem C5_exec_mutation (q : Op) (key : String)
    (h1 : key ≠ "TableName") (h2 : key ≠ "IndexName") (h3 : key ≠ "KeyConditions") :
    dictGet (q.get_params).1.params key = dictGet q.params key ∧
    (q.get_params).1.params = (q.get_params).2 := by
  constructor
  · cases q with
    | scan b =>
      simp only [Op.get_params, Op.params, Op.base, QueryBase.get_params]
      cases b.index with
      | none => exact dictGet_dictSet_ne _ _ _ _ h1
      | some ix =>
        rw [dictGet_dictSet_ne _ _ _ _ h2, dictGet_dictSet_ne _ _ _ _ h1]
    | query b hv rv =>
      simp only [Op.get_params, Op.params, Op.base, QueryBase.get_params]
      rw [dictGet_dictSet_ne _ _ _ _ h3]
      cases b.index with
      | none => exact dictGet_dictSet_ne _ _ _ _ h1
      | some ix =>
        rw [dictGet_dictSet_ne _ _ _ _ h2, dictGet_dictSet_ne _ _ _ _ h1]
  · cases q <;> rfl

/-- Witness for C5 (amended): on the concrete Scan, the (never-written)
Limit parameter is unaffected by execution and the dict passed to the
remote call is the operation's own mutated parameter dict. -/
theorem C5_exec_mutation_witness :
    dictGet (scanEx.get_params).1.params "Limit" = dictGet scanEx.params "Limit" ∧
    (scanEx.get_params).1.params = (scanEx.get_params).2 :=
  C5_exec_mutation scanEx "Limit" (by decide) (by decide) (by decide)

/-- C6: the claim is right about the intent (copy() is documented as
copying the operation) but the code is wrong for Query: the call
`self.__class__(self.session, self.table)` passes the session in the
`hash_value` position and only the table on to `QueryBase.__init__`,
which is then missing its required argument, so copy() on any Query
raises TypeError instead of returning an independent copy. -/
theorem C6_copy_query_raises (b : QueryBase) (hv : DVal) (rv : Option DVal) :
    (Op.query b hv rv).copy = Except.error PyErr.typeError := rfl

/-- C7: the claim is right about the intent (the deprecated
`index(name)` method is part of the API surface) but the code is wrong:
`QueryBase.__init__` always assigns the instance attribute `self.index`,
which shadows the method, so invoking `op.index(name)` on any operation
raises TypeError (None or an Index object is not callable) instead of
setting the IndexName parameter. -/
theorem C7_index_method_shadowed (q : Op) (name : String) :
    q.index_call name = Except.error PyErr.typeError := rfl

/-- C8: the derived KeyConditions block of a Query contains exactly one
entry (the hash field) when no range value was supplied, and exactly
two entries — the hash field then the range field — when a range value
was supplied; each entry maps the field's name to an AttributeValueList
holding the single supplied value passed through that field's
`prepare_dynamo` encoding, and an unsupplied range field is omitted. -/
theorem C8_key_conditions (b : QueryBase) (hv : DVal) (rv : Option DVal)
    (hf rf : KeyField) (hkf : b.table.meta.key_fields = [hf, rf])
    (hne : hf.name ≠ rf.name) :
    dictGet ((Op.query b hv rv).get_params).2 "KeyConditions" =
      some (DVal.dict (match rv with
        | none =>
            [(hf.name, DVal.dict [("AttributeValueList", DVal.list [hf.prepare_dynamo hv])])]
        | some v =>
            [(hf.name, DVal.dict [("AttributeValueList", DVal.list [hf.prepare_dynamo hv])]),
             (rf.name, DVal.dict [("AttributeValueList", DVal.list [rf.prepare_dynamo v])])])) := by
  simp only [Op.get_params]
  rw [dictGet_dictSet_self, hkf]
  cases rv with
  | none => simp [keyConditions, dictSet]
  | some v => simp [keyConditions, dictSet, hne]

/-- A concrete Query operation over `tableEx` with hash value 3 and
range value 4 supplied. -/
def queryEx : Op :=
  Op.query (QueryBase.init 0 (Sum.inl tableEx)) (DVal.nat 3) (some (DVal.nat 4))

/-- Witness for C8: on the concrete Query with both key values supplied
the block holds exactly the two encoded entries, hash field first. -/
theorem C8_key_conditions_witness :
    dictGet (queryEx.get_params).2 "KeyConditions" =
      some (DVal.dict
        [("h", DVal.dict [("AttributeValueList", DVal.list [DVal.list [DVal.nat 3]])]),
         ("r", DVal.dict [("AttributeValueList",
            DVal.list [DVal.list [DVal.nat 4, DVal.nat 4]])])]) :=
  C8_key_conditions (QueryBase.init 0 (Sum.inl tableEx)) (DVal.nat 3) (some (DVal.nat 4))
    ⟨"h", fun v => DVal.list [v]⟩ ⟨"r", fun v => DVal.list [v, v]⟩ rfl (by decide)

/-- C9: select and consumed_capacity validate their argument against
the closed mode sets synchronously at configuration time — these
builder methods never touch the remote primitive, so the failure
happens before any network call: a value outside the set raises
AssertionError, a value inside succeeds and records the parameter. -/
theorem C9_validation (q : Op) (v : String) :
    ((v = "ALL_ATTRIBUTES" ∨ v = "ALL_PROJECTED_ATTRIBUTES" ∨ v = "COUNT" ∨
        v = "SPECIFIC_ATTRIBUTES") →
      ∃ q', q.select v = Except.ok q' ∧ dictGet q'.params "Select" = some (DVal.str v)) ∧
    (¬ (v = "ALL_ATTRIBUTES" ∨ v = "ALL_PROJECTED_ATTRIBUTES" ∨ v = "COUNT" ∨
        v = "SPECIFIC_ATTRIBUTES") →
      q.select v = Except.error PyErr.assertionError) ∧
    ((v = "INDEXES" ∨ v = "TOTAL" ∨ v = "NONE") →
      ∃ q', q.consumed_capacity v = Except.ok q' ∧
        dictGet q'.params "ReturnConsumedCapacity" = some (DVal.str v)) ∧
    (¬ (v = "INDEXES" ∨ v = "TOTAL" ∨ v = "NONE") →
      q.consumed_capacity v = Except.error PyErr.assertionError) := by
  have hwp : ∀ (d : Dict), (q.withParams d).params = d := by
    intro d; cases q <;> rfl
  refine ⟨fun h => ?_, fun h => ?_, fun h => ?_, fun h => ?_⟩
  · refine ⟨q.withParams (dictSet q.params "Select" (DVal.str v)), ?_, ?_⟩
    · simp [Op.select, h]
    · rw [hwp, dictGet_dictSet_self]
  · simp [Op.select, h]
  · refine ⟨q.withParams (dictSet q.params "ReturnConsumedCapacity" (DVal.str v)), ?_, ?_⟩
    · simp [Op.consumed_capacity, h]
    · rw [hwp, dictGet_dictSet_self]
  · simp [Op.consumed_capacity, h]

/-- Witness for C9: on the concrete Scan, COUNT is accepted and
recorded, an unrecognized projection mode raises AssertionError, TOTAL
is accepted and recorded, and an unrecognized capacity mode raises
AssertionError. -/
theorem C9_validation_witness :
    (∃ q', scanEx.select "COUNT" = Except.ok q' ∧
      dictGet q'.params "Select" = some (DVal.str "COUNT")) ∧
    scanEx.select "EVERYTHING" = Except.error PyErr.assertionError ∧
    (∃ q', scanEx.consumed_capacity "TOTAL" = Except.ok q' ∧
      dictGet q'.params "ReturnConsumedCapacity" = some (DVal.str "TOTAL")) ∧
    scanEx.consumed_capacity "SOME" = Except.error PyErr.assertionError :=
  ⟨(C9_validation scanEx "COUNT").1 (by decide),
   (C9_validation scanEx "EVERYTHING").2.1 (by decide),
   (C9_validation scanEx "TOTAL").2.2.1 (by decide),
   (C9_validation scanEx "SOME").2.2.2 (by decide)⟩

/-- C10: iterating the operation object directly is exactly the
multi-page execution path: `__iter__` returns `iter(self.all())`, and
in the model the cursor `all()` returns is the fresh cursor `iterOp`
iterates, so final cursor state and observable trace (calls, yields,
termination) coincide for every operation, decode primitive and
backend response sequence. -/
theorem C10_iter_refines_all (q : Op) (decode : DVal → Table → DVal)
    (responses : List Page) :
    q.iterOp decode responses = (q.all).iter decode responses := rfl

end OdinDDB
